import Mathlib

/-!
Verification of the hawkeye dependency scanner (src/main.py) against its
natural-language specification.  The Python source is shallowly embedded:
pure string processing becomes Lean functions on `String`/`List Char`,
the per-repository scanner state (`self.package_managers`,
`self.dependencies`) becomes an explicit `ScanState` threaded through a
`step` function, and fallible operations (cloning, HTTP advisory lookups)
become `Except`-valued inputs.
-/

/-! ### String primitives mirroring the Python built-ins used by main.py -/

/-- The whitespace characters stripped by Python's `str.strip()`
(restricted to the ASCII range, which is what the scanned files contain). -/
def pySpace (c : Char) : Bool :=
  c == ' ' || c == '\t' || c == '\n' || c == '\r' || c == '\x0b' || c == '\x0c'

/-- Drop trailing characters satisfying `p`. -/
def dropTrail (p : Char → Bool) (l : List Char) : List Char :=
  (l.reverse.dropWhile p).reverse

/-- Python `str.strip(chars)`: remove leading and trailing characters
satisfying `p`. -/
def pyStripGen (p : Char → Bool) (s : String) : String :=
  ⟨dropTrail p (s.data.dropWhile p)⟩

/-- Python `line.strip()`. -/
def pyStrip (s : String) : String := pyStripGen pySpace s

/-- Python `line.strip('"')`. -/
def stripQ (s : String) : String := pyStripGen (fun c => c == '"') s

/-- Python `s.split(sep)` for a single-character separator, on the
character list. -/
def splitOnChar (sep : Char) : List Char → List (List Char)
  | [] => [[]]
  | c :: cs =>
    let r := splitOnChar sep cs
    if c == sep then [] :: r
    else
      match r with
      | [] => [[c]]
      | h :: t => (c :: h) :: t

/-- Python `s.split(sep)` for a single-character separator. -/
def pySplit (sep : Char) (s : String) : List String :=
  (splitOnChar sep s.data).map (fun l => ⟨l⟩)

/-- Python `s.startswith(c)` for a single-character prefix. -/
def startsWithChar (c : Char) (s : String) : Bool :=
  match s.data with
  | [] => false
  | h :: _ => h == c

/-- Python `c in s` for a single character. -/
def hasChar (c : Char) (s : String) : Bool := s.data.contains c

/-- `startsWithL hay needle`: `hay` begins with `needle`. -/
def startsWithL : List Nat → List Nat → Bool
  | _, [] => true
  | [], _ :: _ => false
  | h :: t, n :: ns => (h == n) && startsWithL t ns

/-- `subOccurs needle hay`: `needle` occurs as a contiguous sublist of
`hay` (the semantics of Python's `needle in hay` on strings). -/
def subOccurs (needle : List Nat) : List Nat → Bool
  | [] => startsWithL [] needle
  | h :: t => startsWithL (h :: t) needle || subOccurs needle t

/-- The codepoint of `c` after Python `str.lower()`, for the ASCII range
(the only range a `packageManager` field realistically contains; no
Unicode character lowercases to an ASCII `y`/`a`/`r`/`n`). -/
def lowCode (c : Char) : Nat :=
  if 65 ≤ c.toNat && c.toNat ≤ 90 then c.toNat + 32 else c.toNat

/-- The codepoints of `s.lower()`. -/
def lowCodes (s : String) : List Nat := s.data.map lowCode

/-- Python `sub in s.lower()` for an already-lowercase `sub`. -/
def strHasSub (s sub : String) : Bool :=
  subOccurs (sub.data.map Char.toNat) (lowCodes s)

/-! ### JSON values (already-parsed form, as produced by `json.loads`) -/

/-- A parsed JSON value.  Objects are association lists; `json.loads`
produces Python dicts, so keys are unique in values coming from a real
parse.  Numeric payloads are abstracted as `Int` (no claim depends on
numbers). -/
inductive Json where
  | null
  | bool (b : Bool)
  | num (n : Int)
  | str (s : String)
  | arr (elems : List Json)
  | obj (fields : List (String × Json))

/-- First-match association-list lookup (Python dict lookup for dicts
built by `json.loads`, whose keys are unique). -/
def blookup (k : String) : List (String × Json) → Option Json
  | [] => none
  | p :: ps => if p.1 == k then some p.2 else blookup k ps

/-! ### Package-manager detection (`DependencyScanner.detect_package_manager`) -/

/-- The two concrete package managers the scanner distinguishes for
JavaScript directories (the Python code uses the strings `'npm'` and
`'yarn'`; `None` is its "unknown"). -/
inductive PM where
  | npm
  | yarn
deriving DecidableEq

/-- The contents of an existing directory, as far as
`detect_package_manager` inspects them: whether `yarn.lock` and
`package-lock.json` exist, and — when `package.json` exists — the result
of `json.load`ing it (`Except.error` models a file whose read or JSON
parse raises). -/
structure DirC where
  hasYarnLock : Bool
  hasPackageLock : Bool
  packageJson : Option (Except Unit Json)

/-- The condition `'packageManager' in package_data and 'yarn' in
package_data['packageManager'].lower()` from `detect_package_manager`.
Every abnormal evaluation in the Python (non-dict `package_data`, or a
non-string `packageManager` value, whose `.lower()` raises into the
surrounding `except` which falls through to `'npm'`) ends in the `npm`
outcome, exactly as returning `false` here does. -/
def pmFieldHasYarn : Json → Bool
  | Json.obj fs =>
    match blookup "packageManager" fs with
    | some (Json.str s) => strHasSub s "yarn"
    | _ => false
  | _ => false

/-- `DependencyScanner.detect_package_manager`.  `none` at the outer
level models `not directory.exists()` (and the catch-all `except`, which
also returns `None`). -/
def detect : Option DirC → Option PM
  | none => none
  | some c =>
    if c.hasYarnLock then some PM.yarn
    else if c.hasPackageLock then some PM.npm
    else
      match c.packageJson with
      | some (Except.ok j) => some (if pmFieldHasYarn j then PM.yarn else PM.npm)
      | some (Except.error _) => some PM.npm
      | none => none

/-- The Manager Resolver decision exactly as the specification's claim
words it: fixed precedence, first match wins — `yarn.lock` ⟹ yarn; else
`package-lock.json` ⟹ npm; else `package.json` ⟹ yarn iff its
`packageManager` field contains `"yarn"` case-insensitively, npm
otherwise; else unknown (`none`). -/
def resolverClaim (c : DirC) : Option PM :=
  if c.hasYarnLock then some PM.yarn
  else if c.hasPackageLock then some PM.npm
  else
    match c.packageJson with
    | some pj =>
      some
        (match pj with
         | Except.ok j => if pmFieldHasYarn j then PM.yarn else PM.npm
         | Except.error _ => PM.npm)
    | none => none

/-! ### Dependencies and the three format parsers
(`DependencyScanner.parse_dependencies`) -/

/-- A dependency record, the Python dict `\x7b'name': ..., 'version': ...\x7d`.
The version is kept as the JSON value stored verbatim by the code
(`Json.str "unknown"` for the yarn.lock and requirements parsers). -/
structure Dep where
  name : String
  version : Json

/-- The content of a `package.json` file as the parser's `try` block sees
it: all-whitespace content, content whose `json.loads` raises, or a
parsed JSON value. -/
inductive PkgContent where
  | blank
  | malformed
  | value (j : Json)

/-- Python `\x7b**a, **b\x7d` on dicts with unique keys: `a`'s entries in
order, values overridden by `b` on key collision, then `b`'s new keys in
order. -/
def pyUpdate (a b : List (String × Json)) : List (String × Json) :=
  a.map (fun p => (p.1, (blookup p.1 b).getD p.2))
    ++ b.filter (fun p => (blookup p.1 a).isNone)

/-- `package_data.get(field, \x7b\x7d)` followed by its use as a mapping in
`\x7b** ...\x7d`: an absent field acts as the empty dict, a present object
yields its entries, and a present non-object raises (`TypeError`), which
the surrounding `except` turns into zero dependencies — modelled as
`none`. -/
def asObj : Option Json → Option (List (String × Json))
  | none => some []
  | some (Json.obj fs) => some fs
  | some _ => none

/-- A merged `(name, versionSpecifier)` pair as a dependency record. -/
def mkD (p : String × Json) : Dep := ⟨p.1, p.2⟩

/-- The `package.json` branch of `parse_dependencies`: empty/whitespace
content, a JSON parse error, and a non-object top-level value all yield
zero dependencies; otherwise the `\x7b**dependencies, **devDependencies\x7d`
union, each pair kept verbatim. -/
def parsePackageJson : PkgContent → List Dep
  | PkgContent.blank => []
  | PkgContent.malformed => []
  | PkgContent.value j =>
    match j with
    | Json.obj fs =>
      match asObj (blookup "dependencies" fs), asObj (blookup "devDependencies" fs) with
      | some a, some b => (pyUpdate a b).map mkD
      | _, _ => []
    | _ => []

/-- First-match lookup of a version by dependency name. -/
def depLookup (k : String) : List Dep → Option Json
  | [] => none
  | d :: ds => if d.name == k then some d.version else depLookup k ds

/-- The claim's key-wise union: the version recorded for `k` is
`devDependencies`' entry when present (key-last-wins), else
`dependencies`' entry. -/
def pickVer (k : String) (a b : List (String × Json)) : Option Json :=
  match blookup k b with
  | some v => some v
  | none => blookup k a

/-- The candidate name extracted from one line of a `yarn.lock` file, if
the line reaches the `current_package` assignment: the stripped line must
begin with `"`, and after `strip('"')` must contain `@`.  Mirrors the
loop body in `parse_dependencies` (the first branch is the code's
`parts[0].startswith('@')` test). -/
def yarnLineName (line : String) : Option String :=
  let l := pyStrip line
  if startsWithChar '"' l then
    let pl := stripQ l
    if hasChar '@' pl then
      let parts := pySplit '@' pl
      some
        (if startsWithChar '@' (parts.headD "") then
          "@" ++ ((pySplit ',' (parts.getD 1 "")).headD "")
        else parts.headD "")
    else none
  else none

/-- Membership by `==`, as Python's `in` on a list of strings. -/
def memB (n : String) : List String → Bool
  | [] => false
  | x :: xs => (x == n) || memB n xs

/-- `if current_package and current_package not in dependencies:
dependencies.append(current_package)`. -/
def insName (acc : List String) (n : String) : List String :=
  if n != "" && !(memB n acc) then acc ++ [n] else acc

/-- `insName` with the (always-true for non-empty names) emptiness test
already discharged: insert unless present. -/
def insB (acc : List String) (n : String) : List String :=
  if memB n acc then acc else acc ++ [n]

/-- The deduplicated name list accumulated over all lines of a
`yarn.lock` file. -/
def yarnNames (content : String) : List String :=
  (pySplit '\n' content).foldl
    (fun acc line =>
      match yarnLineName line with
      | some n => insName acc n
      | none => acc)
    []

/-- The `yarn.lock` branch of `parse_dependencies`: every surviving name
becomes a dependency with version `"unknown"`. -/
def parseYarnLock (content : String) : List Dep :=
  (yarnNames content).map (fun n => ⟨n, Json.str "unknown"⟩)

/-- Keep the first occurrence of each name, dropping later repeats — the
specification's description of the per-pass deduplication. -/
def dedupFirst : List String → List String
  | [] => []
  | x :: xs => x :: dedupFirst (xs.filter (fun y => !(y == x)))
termination_by l => l.length
decreasing_by
  simp only [List.length_cons]
  exact Nat.lt_succ_of_le (List.length_filter_le _ _)

/-- The raw (not yet deduplicated) candidate names of a `yarn.lock`
file, in line order. -/
def yarnRawNames (content : String) : List String :=
  (pySplit '\n' content).filterMap yarnLineName

/-- The `requirements.txt` branch of `parse_dependencies`: keep every
line whose stripped form is non-empty and whose RAW form does not start
with `#`, recording the stripped line verbatim as the name.  (The Python
iterates `f.readlines()`, whose line-terminator suffixes are removed by
`strip()` and do not affect `startswith('#')`, so splitting on `'\n'` is
an equivalent line model.) -/
def parseRequirements (content : String) : List Dep :=
  ((pySplit '\n' content).filter
      (fun l => pyStrip l != "" && !(startsWithChar '#' l))).map
    (fun l => ⟨pyStrip l, Json.str "unknown"⟩)

/-- Whether a JSON value is an object. -/
def isObjJ : Json → Bool
  | Json.obj _ => true
  | _ => false

/-- The requirements parser as the (amended) claim words it: drop blank
lines and lines whose raw form starts with `#`; each kept line's trimmed
form becomes a name verbatim, with version `"unknown"`. -/
def reqClaim (content : String) : List Dep :=
  (pySplit '\n' content).filterMap
    (fun l =>
      if pyStrip l = "" then none
      else if startsWithChar '#' l then none
      else some ⟨pyStrip l, Json.str "unknown"⟩)

/-! ### Per-repository scanner state and the `parse_dependencies` step -/

/-- The manifest kind assigned by `_get_file_type`. -/
inductive FType where
  | npm
  | yarn
  | python
deriving DecidableEq

/-- One manifest to process: its directory and filename, its locator
kind, the directory contents `detect_package_manager` would see, and the
file's content (`pjContent` is consulted for `package.json`,
`rawContent` for `yarn.lock` and `requirements.txt`). -/
structure FileTask where
  dir : String
  fname : String
  ftype : FType
  dirModel : Option DirC
  pjContent : PkgContent
  rawContent : String

/-- The mutable state of one `DependencyScanner`:
`self.package_managers` (a dict whose values may be `None`) and the
three lists of `self.dependencies`. -/
structure ScanState where
  cache : List (String × Option PM)
  npm : List Dep
  yarn : List Dep
  python : List Dep

/-- Lookup in the per-directory cache; `some none` is a stored `None`
(unknown), `none` means the directory was never resolved. -/
def cacheLookup (dir : String) : List (String × Option PM) → Option (Option PM)
  | [] => none
  | p :: ps => if p.1 == dir then some p.2 else cacheLookup dir ps

/-- A fresh scanner (`DependencyScanner.__init__`): empty cache, empty
dependency lists. -/
def scanInit : ScanState := ⟨[], [], [], []⟩

/-- Append parsed dependencies under the resolved manager's list. -/
def addDeps (s : ScanState) (pm : PM) (ds : List Dep) : ScanState :=
  match pm with
  | PM.npm => { s with npm := s.npm ++ ds }
  | PM.yarn => { s with yarn := s.yarn ++ ds }

/-- One call of `DependencyScanner.parse_dependencies` on one manifest.
For npm/yarn kinds the directory is resolved through the cache (detected
and stored only when absent); a cached/detected `None` records nothing.
The `yarn.lock` branch re-reads the cache with `.get`, exactly as the
code does. -/
def step (s : ScanState) (t : FileTask) : ScanState :=
  match t.ftype with
  | FType.python => { s with python := s.python ++ parseRequirements t.rawContent }
  | _ =>
    let found := cacheLookup t.dir s.cache
    let cache :=
      match found with
      | some _ => s.cache
      | none => s.cache ++ [(t.dir, detect t.dirModel)]
    let pm :=
      match found with
      | some v => v
      | none => detect t.dirModel
    let s1 : ScanState := { s with cache := cache }
    match pm with
    | none => s1
    | some pm =>
      if t.fname = "package.json" then
        addDeps s1 pm (parsePackageJson t.pjContent)
      else if t.fname = "yarn.lock" then
        match cacheLookup t.dir s1.cache with
        | some (some PM.yarn) => { s1 with yarn := s1.yarn ++ parseYarnLock t.rawContent }
        | _ => s1
      else s1

/-- The state `parse_dependencies` produces for an npm/yarn manifest
whose directory is already cached with decision `v`: the state is
untouched for a cached `None`; otherwise the branch selected by the
filename runs, with the cache left exactly as it was. -/
def stepCachedRhs (s : ScanState) (nm : String) (pc : PkgContent) (rc : String) :
    Option PM → ScanState
  | none => s
  | some pm =>
    if nm = "package.json" then addDeps s pm (parsePackageJson pc)
    else if nm = "yarn.lock" then
      match pm with
      | PM.yarn => { s with yarn := s.yarn ++ parseYarnLock rc }
      | PM.npm => s
    else s

/-! ### Advisory lookup (`check_vulnerabilities`) and the orchestrator -/

/-- An HTTP response from the advisories endpoint: status code and the
decoded JSON body (a list of advisory records). -/
structure AdvResp where
  status : Nat
  body : List Json

/-- One vulnerability record as appended by `check_vulnerabilities`. -/
structure VulnMatch where
  dependency : String
  ecoTag : String
  version : Json
  advisories : List Json

/-- The three per-ecosystem dependency lists (`self.dependencies`). -/
structure DepSet where
  npm : List Dep
  yarn : List Dep
  python : List Dep

/-- The dependency lists accumulated in a scanner state. -/
def depsOf (s : ScanState) : DepSet := ⟨s.npm, s.yarn, s.python⟩

/-- The inner loop of `check_vulnerabilities` over one ecosystem list.
`lookup` models `requests.get`: `Except.error` is a raised transport
exception (uncaught by the code, hence propagated); a returned response
attaches a match only when the status is 200 and the body is non-empty
(`if vulns:`). -/
def checkList (lookup : String → Except String AdvResp) (tag : String) :
    List Dep → Except String (List VulnMatch)
  | [] => Except.ok []
  | d :: ds =>
    match lookup d.name with
    | Except.error e => Except.error e
    | Except.ok resp =>
      match checkList lookup tag ds with
      | Except.error e => Except.error e
      | Except.ok rest =>
        Except.ok
          ((if resp.status == 200 && !resp.body.isEmpty then
              [⟨d.name, tag, d.version, resp.body⟩]
            else []) ++ rest)

/-- `DependencyScanner.check_vulnerabilities`: iterate the three lists in
dict insertion order (npm, yarn, python); the first raised lookup
exception aborts the whole call.  (The code's `if not deps: continue` is
a no-op on the result.) -/
def checkVulnerabilities (lookup : String → Except String AdvResp) (d : DepSet) :
    Except String (List VulnMatch) :=
  match checkList lookup "npm" d.npm with
  | Except.error e => Except.error e
  | Except.ok a =>
    match checkList lookup "yarn" d.yarn with
    | Except.error e => Except.error e
    | Except.ok b =>
      match checkList lookup "python" d.python with
      | Except.error e => Except.error e
      | Except.ok c => Except.ok (a ++ b ++ c)

/-- The matches one ecosystem list contributes when every lookup returns
a response: exactly the dependencies whose response has status 200 and a
non-empty body. -/
def specList (respOf : String → AdvResp) (tag : String) (l : List Dep) : List VulnMatch :=
  l.filterMap
    (fun d =>
      if (respOf d.name).status == 200 && !(respOf d.name).body.isEmpty then
        some ⟨d.name, tag, d.version, (respOf d.name).body⟩
      else none)

/-- The advisory matches of a whole dependency set under exception-free
lookups. -/
def vulnSpec (respOf : String → AdvResp) (d : DepSet) : List VulnMatch :=
  specList respOf "npm" d.npm ++ specList respOf "yarn" d.yarn
    ++ specList respOf "python" d.python

/-- The value `scan_repository` returns: either a success dict with
`repo_name`, `dependencies` and `vulnerabilities` fields, or an error
dict with only `repo_name` and `error`. -/
inductive ScanResult where
  | ok (repoName : String) (deps : DepSet) (vulns : List VulnMatch)
  | err (repoName : String) (error : String)

/-- One repository as the orchestrator sees it: its name, the outcome of
cloning and locating manifests (`Except.error` is a raised
`GitCommandError`), and its advisory-lookup behaviour. -/
structure Repo where
  name : String
  clone : Except String (List FileTask)
  lookup : String → Except String AdvResp

/-- `scan_repository`: clone, locate, parse every manifest in discovery
order, look up advisories; any raised exception becomes an error result
and never propagates. -/
def scanRepo (r : Repo) : ScanResult :=
  match r.clone with
  | Except.error e => ScanResult.err r.name e
  | Except.ok tasks =>
    let st := tasks.foldl step scanInit
    match checkVulnerabilities r.lookup (depsOf st) with
    | Except.error e => ScanResult.err r.name e
    | Except.ok vs => ScanResult.ok r.name (depsOf st) vs

/-- The batch loop of `main()`: skip excluded repositories, append one
result per scanned repository. -/
def mainScan (excluded : List String) (repos : List Repo) : List ScanResult :=
  repos.foldl
    (fun acc r => if memB r.name excluded then acc else acc ++ [scanRepo r])
    []

/-! ### Helper lemmas -/

theorem beqCommS (a b : String) : (a == b) = (b == a) := by
  by_cases h : a = b
  · subst h; rfl
  · have h1 : (a == b) = false := by simpa using h
    have h2 : (b == a) = false := by simpa using Ne.symm h
    rw [h1, h2]

theorem memB_iff (n : String) : ∀ l : List String, memB n l = true ↔ n ∈ l := by
  intro l
  induction l with
  | nil => simp [memB]
  | cons x xs ih =>
    simp only [memB, Bool.or_eq_true, ih, List.mem_cons, beq_iff_eq]
    constructor
    · rintro (h | h)
      · exact Or.inl h.symm
      · exact Or.inr h
    · rintro (h | h)
      · exact Or.inl h.symm
      · exact Or.inr h

theorem memB_false {n : String} {l : List String} (h : memB n l = false) : n ∉ l := by
  intro hm
  have := (memB_iff n l).mpr hm
  simp [this] at h

theorem memB_append (n : String) : ∀ a b : List String, memB n (a ++ b) = (memB n a || memB n b) := by
  intro a b
  induction a with
  | nil => simp [memB]
  | cons x xs ih => simp [memB, ih, Bool.or_assoc]

theorem insFold_filter :
    ∀ l acc : List String,
      l.foldl insName acc = (l.filter (fun n => n != "")).foldl insB acc := by
  intro l
  induction l with
  | nil => intro acc; rfl
  | cons x xs ih =>
    intro acc
    by_cases h : x = ""
    · subst h
      have hx : ("" != "") = false := by simp
      simp only [List.foldl_cons, List.filter_cons, hx, insName, Bool.false_and,
        Bool.false_eq_true, if_false]
      exact ih acc
    · have hx : (x != "") = true := by simpa using h
      simp only [List.foldl_cons, List.filter_cons, hx, if_true]
      rw [ih]
      have : insName acc x = insB acc x := by
        unfold insName insB
        cases hm : memB x acc <;> simp [hx, hm]
      rw [this]

theorem insFold_dedup :
    ∀ l acc : List String,
      l.foldl insB acc = acc ++ dedupFirst (l.filter (fun n => !(memB n acc))) := by
  intro l
  induction l with
  | nil => intro acc; simp [dedupFirst]
  | cons x xs ih =>
    intro acc
    rw [List.foldl_cons]
    cases hm : memB x acc with
    | true =>
      have hins : insB acc x = acc := by simp [insB, hm]
      rw [hins, ih]
      have hf : (x :: xs).filter (fun n => !(memB n acc))
          = xs.filter (fun n => !(memB n acc)) := by
        simp [List.filter_cons, hm]
      rw [hf]
    | false =>
      have hins : insB acc x = acc ++ [x] := by simp [insB, hm]
      rw [hins, ih]
      have hfeq : xs.filter (fun n => !(memB n (acc ++ [x])))
          = (xs.filter (fun n => !(memB n acc))).filter (fun y => !(y == x)) := by
        rw [List.filter_filter]
        apply List.filter_congr
        intro a _
        rw [memB_append]
        simp only [memB, Bool.or_false]
        rw [beqCommS x a]
        cases hb : memB a acc <;> cases hc : a == x <;> simp [hb, hc]
      rw [hfeq]
      have hf : (x :: xs).filter (fun n => !(memB n acc))
          = x :: xs.filter (fun n => !(memB n acc)) := by
        simp [List.filter_cons, hm]
      rw [hf]
      rw [dedupFirst]
      simp [List.append_assoc]

theorem yarnFold_eq :
    ∀ (lines : List String) (acc : List String),
      lines.foldl
          (fun acc line =>
            match yarnLineName line with
            | some n => insName acc n
            | none => acc)
          acc
        = (lines.filterMap yarnLineName).foldl insName acc := by
  intro lines
  induction lines with
  | nil => intro acc; rfl
  | cons l ls ih =>
    intro acc
    cases h : yarnLineName l <;> simp [List.filterMap_cons, h, ih]

theorem yarnNames_eq (content : String) :
    yarnNames content = dedupFirst ((yarnRawNames content).filter (fun n => n != "")) := by
  unfold yarnNames yarnRawNames
  rw [yarnFold_eq, insFold_filter, insFold_dedup]
  simp [memB]

theorem insName_nodup (acc : List String) (n : String) (h : acc.Nodup) :
    (insName acc n).Nodup := by
  by_cases hc : (n != "" && !(memB n acc)) = true
  · have hp : (n != "") = true ∧ (!(memB n acc)) = true := by simpa using hc
    have hm : memB n acc = false := by simpa using hp.2
    rw [insName, if_pos hc]
    simp [List.nodup_append, h, memB_false hm]
  · rw [insName, if_neg hc]
    exact h

theorem insFold_nodup :
    ∀ l acc : List String, acc.Nodup → (l.foldl insName acc).Nodup := by
  intro l
  induction l with
  | nil => intro acc h; exact h
  | cons x xs ih => intro acc h; exact ih _ (insName_nodup acc x h)

theorem insName_ne (acc : List String) (n y : String) (h : ∀ x ∈ acc, x ≠ "")
    (hy : y ∈ insName acc n) : y ≠ "" := by
  by_cases hc : (n != "" && !(memB n acc)) = true
  · rw [insName, if_pos hc] at hy
    rcases List.mem_append.mp hy with h1 | h1
    · exact h y h1
    · have hyn : y = n := by simpa using h1
      have hp : (n != "") = true ∧ (!(memB n acc)) = true := by simpa using hc
      rw [hyn]
      simpa using hp.1
  · rw [insName, if_neg hc] at hy
    exact h y hy

theorem insFold_ne :
    ∀ l acc : List String, (∀ x ∈ acc, x ≠ "") →
      ∀ y ∈ l.foldl insName acc, y ≠ "" := by
  intro l
  induction l with
  | nil => intro acc h y hy; exact h y hy
  | cons x xs ih =>
    intro acc h y hy
    exact ih (insName acc x) (fun z hz => insName_ne acc x z h hz) y hy

theorem depLookup_mapUpdate (k : String) (b : List (String × Json)) :
    ∀ (a : List (String × Json)) (r : List Dep),
      depLookup k ((a.map (fun p => (p.1, (blookup p.1 b).getD p.2))).map mkD ++ r)
        = match blookup k a with
          | some v => some ((blookup k b).getD v)
          | none => depLookup k r := by
  intro a
  induction a with
  | nil => intro r; simp [blookup]
  | cons p ps ih =>
    intro r
    cases hk : p.1 == k
    · simp only [List.map_cons, List.cons_append, depLookup, mkD, blookup, hk,
        Bool.false_eq_true, if_false]
      exact ih r
    · have hpk : p.1 = k := by simpa using hk
      subst hpk
      simp [depLookup, mkD, blookup]

theorem depLookup_filterNew (k : String) (q : String × Json → Bool)
    (hq : ∀ p : String × Json, p.1 = k → q p = true) :
    ∀ b : List (String × Json),
      depLookup k ((b.filter q).map mkD) = blookup k b := by
  intro b
  induction b with
  | nil => rfl
  | cons p ps ih =>
    cases hk : p.1 == k
    · cases hqp : q p
      · simp [List.filter_cons, hqp, blookup, hk, ih]
      · simp [List.filter_cons, hqp, depLookup, mkD, blookup, hk, ih]
    · have hqt : q p = true := hq p (by simpa using hk)
      simp [List.filter_cons, hqt, depLookup, mkD, blookup, hk]

theorem pyUpdate_lookup (k : String) (a b : List (String × Json)) :
    depLookup k ((pyUpdate a b).map mkD) = pickVer k a b := by
  unfold pyUpdate pickVer
  rw [List.map_append, depLookup_mapUpdate]
  cases hk : blookup k a
  · rw [depLookup_filterNew k _ (fun p hp => by simp [hp, hk]) b]
    cases hb : blookup k b <;> simp [hb, hk]
  · cases hb : blookup k b <;> simp [hb]

theorem mainScan_fold :
    ∀ (repos : List Repo) (excluded : List String) (acc : List ScanResult),
      repos.foldl (fun acc r => if memB r.name excluded then acc else acc ++ [scanRepo r]) acc
        = acc ++ (repos.filter (fun r => !(memB r.name excluded))).map scanRepo := by
  intro repos excluded
  induction repos with
  | nil => intro acc; simp
  | cons r rs ih =>
    intro acc
    cases hm : memB r.name excluded <;>
      simp [List.filter_cons, hm, ih, List.append_assoc]

theorem mainScan_eq (excluded : List String) (repos : List Repo) :
    mainScan excluded repos
      = (repos.filter (fun r => !(memB r.name excluded))).map scanRepo := by
  unfold mainScan
  rw [mainScan_fold]
  simp

theorem checkList_ok (respOf : String → AdvResp) (tag : String) :
    ∀ l : List Dep,
      checkList (fun n => Except.ok (respOf n)) tag l
        = Except.ok (specList respOf tag l) := by
  intro l
  induction l with
  | nil => rfl
  | cons d ds ih =>
    cases hc : ((respOf d.name).status == 200 && !(respOf d.name).body.isEmpty) <;>
      simp [checkList, ih, specList, List.filterMap_cons, hc]

theorem reqEq :
    ∀ lines : List String,
      (lines.filter (fun l => pyStrip l != "" && !(startsWithChar '#' l))).map
          (fun l => (⟨pyStrip l, Json.str "unknown"⟩ : Dep))
        = lines.filterMap
            (fun l =>
              if pyStrip l = "" then none
              else if startsWithChar '#' l then none
              else some (⟨pyStrip l, Json.str "unknown"⟩ : Dep)) := by
  intro lines
  induction lines with
  | nil => rfl
  | cons l ls ih =>
    by_cases h1 : pyStrip l = ""
    · have h1b : (pyStrip l != "") = false := by simpa using h1
      simp [List.filter_cons, List.filterMap_cons, h1, h1b, ih]
    · have h1b : (pyStrip l != "") = true := by simpa using h1
      cases h2 : startsWithChar '#' l <;>
        simp [List.filter_cons, List.filterMap_cons, h1, h1b, h2, ih]

theorem parseYarn_names (content : String) :
    (parseYarnLock content).map Dep.name = yarnNames content := by
  unfold parseYarnLock
  rw [List.map_map]
  exact List.map_id _

theorem yarnNames_nodup (content : String) : (yarnNames content).Nodup := by
  unfold yarnNames
  rw [yarnFold_eq]
  exact insFold_nodup _ [] List.nodup_nil

/-! ### Claim theorems -/

/-- Claim C1: for every directory examined during a scan, the Manager
Resolver decides by fixed precedence with first match winning —
`yarn.lock` present gives yarn; else `package-lock.json` gives npm; else
`package.json` gives yarn exactly when its `packageManager` field
contains `"yarn"` case-insensitively and npm otherwise; else the result
is unknown.  Stated as the pointwise agreement of the embedded
`detect_package_manager` with the claim's decision procedure, together
with the specification's concrete decision-table instances. -/
theorem C1_resolver_precedence (c : DirC) :
    detect (some c) = resolverClaim c
    ∧ detect none = none
    ∧ detect (some ⟨true, false, none⟩) = some PM.yarn
    ∧ detect (some ⟨true, true, none⟩) = some PM.yarn
    ∧ detect (some ⟨false, true, none⟩) = some PM.npm
    ∧ detect (some ⟨false, false,
        some (Except.ok (Json.obj [("packageManager", Json.str "yarn@3.0.0")]))⟩)
      = some PM.yarn
    ∧ detect (some ⟨false, false,
        some (Except.ok (Json.obj [("packageManager", Json.str "YARN@4.1.0")]))⟩)
      = some PM.yarn
    ∧ detect (some ⟨false, false,
        some (Except.ok (Json.obj [("packageManager", Json.str "npm@9.0.0")]))⟩)
      = some PM.npm
    ∧ detect (some ⟨false, false, some (Except.ok (Json.obj []))⟩) = some PM.npm
    ∧ detect (some ⟨false, false, some (Except.error ())⟩) = some PM.npm
    ∧ detect (some ⟨false, false, none⟩) = none := by
  refine ⟨?_, rfl, rfl, rfl, rfl, by decide, by decide, by decide, rfl, rfl, rfl⟩
  rcases c with ⟨hy, hp, pj⟩
  cases hy
  · cases hp
    · cases pj with
      | none => rfl
      | some x => cases x <;> rfl
    · rfl
  · rfl

/-- Claim C2 (code bug): the specification says a scoped yarn.lock
header such as `"@babel/core@^7.0.0, @babel/core@^7.1.0":` yields one
Dependency named `@babel/core`.  The code's scoped-package branch tests
`parts[0].startswith('@')`, but `parts[0]` — the text before the first
`@` of the `'@'.split` — can never contain `@`, so the branch (despite
its `# Scoped package` comment) is unreachable; `current_package`
becomes the empty string and is dropped, and the header contributes no
dependency at all. -/
theorem C2_scoped_header_dropped :
    parseYarnLock "\"@babel/core@^7.0.0, @babel/core@^7.1.0\":" = []
    ∧ yarnLineName "\"@babel/core@^7.0.0, @babel/core@^7.1.0\":" = some "" := by
  exact ⟨rfl, rfl⟩

/-- Claim C3 counterexample: the claim says every line whose TRIMMED
form starts with `#` is dropped; the code tests `startswith('#')` on the
raw, untrimmed line.  On the file `requests==2.0`, blank, `  # comment`
(indented), `flask`, the parser keeps the indented comment as a
dependency named `# comment`, so the output has three records, not the
two the claim requires. -/
theorem C3_indented_comment_kept :
    parseRequirements "requests==2.0\n\n  # comment\nflask"
      = [⟨"requests==2.0", Json.str "unknown"⟩, ⟨"# comment", Json.str "unknown"⟩,
         ⟨"flask", Json.str "unknown"⟩]
    ∧ (parseRequirements "requests==2.0\n\n  # comment\nflask").length = 3 := by
  exact ⟨rfl, rfl⟩

/-- Claim C3 as amended: the requirements parser drops every blank
(whitespace-only) line and every line whose RAW (untrimmed) form starts
with `#`, and records each remaining line's trimmed form verbatim as a
Dependency name with version `"unknown"`; the claim's own example (whose
comment line is unindented) still yields exactly the dependencies
`requests==2.0` and `flask`. -/
theorem C3_requirements_amended (content : String) :
    parseRequirements content = reqClaim content
    ∧ (parseRequirements content).map Dep.version
      = List.replicate (parseRequirements content).length (Json.str "unknown")
    ∧ parseRequirements "requests==2.0\n\n# comment\nflask"
      = [⟨"requests==2.0", Json.str "unknown"⟩, ⟨"flask", Json.str "unknown"⟩] := by
  refine ⟨reqEq _, ?_, rfl⟩
  unfold parseRequirements
  rw [List.map_map, List.length_map]
  exact List.map_const' _ _

/-- Claim C4: for every `package.json` whose top-level value is a JSON
object, the parsed dependency list is the key-wise union of its
`dependencies` and `devDependencies` objects with key-last-wins
(`devDependencies` overrides), versions kept verbatim: looking up any
name `k` in the output returns exactly `devDependencies[k]` when
present, else `dependencies[k]`.  Empty/whitespace-only content and a
non-object top-level value yield zero dependencies, as does `\x7b\x7d`,
and the specification's collision example gives `a ↦ 2.0.0`. -/
theorem C4_package_json_union (fs a b : List (String × Json)) (k : String) (j : Json)
    (h1 : asObj (blookup "dependencies" fs) = some a)
    (h2 : asObj (blookup "devDependencies" fs) = some b)
    (hj : isObjJ j = false) :
    depLookup k (parsePackageJson (PkgContent.value (Json.obj fs))) = pickVer k a b
    ∧ parsePackageJson PkgContent.blank = []
    ∧ parsePackageJson (PkgContent.value j) = []
    ∧ parsePackageJson (PkgContent.value (Json.obj [])) = []
    ∧ parsePackageJson (PkgContent.value (Json.obj
        [("dependencies", Json.obj [("a", Json.str "1.0.0")]),
         ("devDependencies", Json.obj [("a", Json.str "2.0.0")])]))
      = [⟨"a", Json.str "2.0.0"⟩] := by
  refine ⟨?_, rfl, ?_, rfl, rfl⟩
  · simp only [parsePackageJson]
    rw [h1, h2]
    exact pyUpdate_lookup k a b
  · cases j <;> first | rfl | simp [isObjJ] at hj

/-- Witness for C4 at the specification's collision example. -/
theorem C4_package_json_union_witness :
    asObj (blookup "dependencies"
        [("dependencies", Json.obj [("a", Json.str "1.0.0")]),
         ("devDependencies", Json.obj [("a", Json.str "2.0.0")])])
      = some [("a", Json.str "1.0.0")]
    ∧ asObj (blookup "devDependencies"
        [("dependencies", Json.obj [("a", Json.str "1.0.0")]),
         ("devDependencies", Json.obj [("a", Json.str "2.0.0")])])
      = some [("a", Json.str "2.0.0")]
    ∧ isObjJ (Json.arr []) = false
    ∧ depLookup "a" (parsePackageJson (PkgContent.value (Json.obj
        [("dependencies", Json.obj [("a", Json.str "1.0.0")]),
         ("devDependencies", Json.obj [("a", Json.str "2.0.0")])])))
      = pickVer "a" [("a", Json.str "1.0.0")] [("a", Json.str "2.0.0")] :=
  ⟨rfl, rfl, rfl,
    (C4_package_json_union
      [("dependencies", Json.obj [("a", Json.str "1.0.0")]),
       ("devDependencies", Json.obj [("a", Json.str "2.0.0")])]
      [("a", Json.str "1.0.0")] [("a", Json.str "2.0.0")] "a" (Json.arr [])
      rfl rfl rfl).1⟩

/-- Claim C5: within a single yarn.lock parse, emitted names are exactly
the non-empty extracted names deduplicated with the first occurrence
kept (`dedupFirst`), hence pairwise distinct; every emitted version is
`"unknown"`; the two-`lodash`-headers example yields one `lodash`
dependency, and an interleaved example shows first-occurrence order. -/
theorem C5_yarn_dedup (content : String) :
    (parseYarnLock content).map Dep.name
      = dedupFirst ((yarnRawNames content).filter (fun n => n != ""))
    ∧ ((parseYarnLock content).map Dep.name).Nodup
    ∧ (parseYarnLock content).map Dep.version
      = List.replicate (parseYarnLock content).length (Json.str "unknown")
    ∧ parseYarnLock "\"lodash@^4.17.0\":\n\"lodash@^4.16.0\":"
      = [⟨"lodash", Json.str "unknown"⟩]
    ∧ yarnNames "\"alpha@1.0\":\n\"beta@1.0\":\n\"alpha@2.0\":" = ["alpha", "beta"] := by
  refine ⟨?_, ?_, ?_, rfl, rfl⟩
  · rw [parseYarn_names, yarnNames_eq]
  · rw [parseYarn_names]
    exact yarnNames_nodup content
  · unfold parseYarnLock
    rw [List.map_map, List.length_map]
    exact List.map_const' _ _

/-- Claim C10: every dependency the yarn.lock parser emits has a
non-empty name — the guard `if current_package and ...` drops an empty
extraction, so a header whose extracted name portion is empty (for
instance a scoped header, whose split leaves an empty `parts[0]`)
contributes no dependency at all. -/
theorem C10_nonempty_names (content : String) :
    (parseYarnLock content).all (fun d => d.name != "") = true
    ∧ parseYarnLock "\"@left-empty@1.0.0\":" = [] := by
  refine ⟨?_, rfl⟩
  rw [List.all_eq_true]
  intro d hd
  unfold parseYarnLock at hd
  rcases List.mem_map.mp hd with ⟨n, hn, rfl⟩
  have hne : n ≠ "" := by
    unfold yarnNames at hn
    rw [yarnFold_eq] at hn
    exact insFold_ne _ [] (fun x hx => absurd hx (List.not_mem_nil x)) n hn
  simpa using hne

theorem step_js_cached (s : ScanState) (dir nm : String) (ft : FType)
    (hft : ft ≠ FType.python)
    (dm : Option DirC) (pc : PkgContent) (rc : String) (v : Option PM)
    (h : cacheLookup dir s.cache = some v) :
    step s ⟨dir, nm, ft, dm, pc, rc⟩ = stepCachedRhs s nm pc rc v := by
  cases ft
  case python => exact absurd rfl hft
  all_goals (
    unfold step
    dsimp only
    rw [h]
    dsimp only
    rw [h]
    cases v with
    | none => rfl
    | some pm => cases pm <;> rfl)

/-- Claim C6: the package-manager decision is computed at most once per
directory and per repository scan.  Once the cache holds a value for a
directory (including a stored `None`), a later manifest in that
directory leaves the cache unchanged and its processing is independent
of the directory's current contents (`dirModel`), i.e. nothing is
re-evaluated; a fresh scanner starts with an empty cache, and the batch
result is a map of per-repository scans each owning its own scanner, so
caches are never shared across repositories. -/
theorem C6_cache_owned (s : ScanState) (dir nm : String) (ft : FType)
    (dm1 dm2 : Option DirC) (pc : PkgContent) (rc : String) (v : Option PM)
    (excluded : List String) (repos : List Repo)
    (h : cacheLookup dir s.cache = some v) :
    (step s ⟨dir, nm, ft, dm1, pc, rc⟩).cache = s.cache
    ∧ step s ⟨dir, nm, ft, dm1, pc, rc⟩ = step s ⟨dir, nm, ft, dm2, pc, rc⟩
    ∧ scanInit.cache = []
    ∧ mainScan excluded repos
      = (repos.filter (fun r => !(memB r.name excluded))).map scanRepo := by
  by_cases hft : ft = FType.python
  · subst hft
    exact ⟨rfl, rfl, rfl, mainScan_eq excluded repos⟩
  · refine ⟨?_, ?_, rfl, mainScan_eq excluded repos⟩
    · rw [step_js_cached s dir nm ft hft dm1 pc rc v h]
      cases v with
      | none => rfl
      | some pm =>
        simp only [stepCachedRhs]
        by_cases h1 : nm = "package.json"
        · rw [if_pos h1]; cases pm <;> rfl
        · rw [if_neg h1]
          by_cases h2 : nm = "yarn.lock"
          · rw [if_pos h2]; cases pm <;> rfl
          · rw [if_neg h2]
    · rw [step_js_cached s dir nm ft hft dm1 pc rc v h,
          step_js_cached s dir nm ft hft dm2 pc rc v h]

/-- Witness for C6: a directory cached as npm is reused untouched. -/
theorem C6_cache_owned_witness :
    cacheLookup "d" [("d", some PM.npm)] = some (some PM.npm)
    ∧ (step ⟨[("d", some PM.npm)], [], [], []⟩
        ⟨"d", "package.json", FType.npm, none, PkgContent.blank, ""⟩).cache
      = [("d", some PM.npm)] := by
  refine ⟨rfl, ?_⟩
  exact (C6_cache_owned ⟨[("d", some PM.npm)], [], [], []⟩ "d" "package.json" FType.npm
    none (some ⟨true, false, none⟩) PkgContent.blank "" (some PM.npm) [] [] rfl).1

/-- Claim C7: a directory whose cached resolution is `None` (unknown) is
terminal for resolver-governed (npm/yarn-kind) manifests within the same
scan: processing any such manifest there leaves the scanner state —
cache and all three dependency lists — exactly unchanged, for every
possible current directory contents, so the resolution is never retried
and no dependencies are recorded through it.  (Python requirements files
bypass the resolver, as the claim's sources note.) -/
theorem C7_unknown_terminal (s : ScanState) (dir nm : String) (ft : FType)
    (dm : Option DirC) (pc : PkgContent) (rc : String)
    (hft : ft = FType.npm ∨ ft = FType.yarn)
    (h : cacheLookup dir s.cache = some none) :
    step s ⟨dir, nm, ft, dm, pc, rc⟩ = s := by
  have hft2 : ft ≠ FType.python := by
    rcases hft with h1 | h1 <;> subst h1 <;> exact fun hx => FType.noConfusion hx
  rw [step_js_cached s dir nm ft hft2 dm pc rc none h]
  rfl

/-- Witness for C7: an unknown-cached directory absorbs a package.json
task with no state change. -/
theorem C7_unknown_terminal_witness :
    (FType.npm = FType.npm ∨ FType.npm = FType.yarn)
    ∧ cacheLookup "d" [("d", (none : Option PM))] = some none
    ∧ step ⟨[("d", none)], [], [], []⟩
        ⟨"d", "package.json", FType.npm, none, PkgContent.blank, ""⟩
      = ⟨[("d", none)], [], [], []⟩ :=
  ⟨Or.inl rfl, rfl,
    C7_unknown_terminal ⟨[("d", none)], [], [], []⟩ "d" "package.json" FType.npm
      none PkgContent.blank "" (Or.inl rfl) rfl⟩

/-- Claim C8: a repository whose scan raises at any stage — here the
clone stage — produces the error-shaped result carrying the repository
name and the message (the `ScanResult.err` constructor has no
dependencies/vulnerabilities fields); `scanRepo` is total, so nothing
propagates to the batch driver, and the batch is exactly one result per
non-excluded repository. -/
theorem C8_error_isolated (repos : List Repo) (excluded : List String)
    (r : Repo) (e : String) (h : r.clone = Except.error e) :
    scanRepo r = ScanResult.err r.name e
    ∧ mainScan excluded repos
      = (repos.filter (fun x => !(memB x.name excluded))).map scanRepo := by
  refine ⟨?_, mainScan_eq excluded repos⟩
  unfold scanRepo
  rw [h]

/-- Witness for C8: a repository whose clone fails yields an error
result. -/
theorem C8_error_isolated_witness :
    (Repo.mk "alpha" (Except.error "clone failed") (fun _ => Except.ok ⟨404, []⟩)).clone
      = Except.error "clone failed"
    ∧ scanRepo (Repo.mk "alpha" (Except.error "clone failed") (fun _ => Except.ok ⟨404, []⟩))
      = ScanResult.err "alpha" "clone failed" :=
  ⟨rfl, (C8_error_isolated [] [] _ "clone failed" rfl).1⟩

/-- Claim C9 as amended: every advisory lookup that RETURNS a response
is non-fatal — the whole pass returns `Except.ok`, and a dependency
whose response is non-200 (or 200 with an empty body) contributes no
match, exactly the `vulnSpec` filter; concrete instances for a 404, an
empty 200 body, and a match-producing 200 are included.  (A lookup that
raises instead of returning is NOT absorbed — see the counterexample —
which is the one correction to the claim.) -/
theorem C9_nonsuccess_no_data (respOf : String → AdvResp) (d : DepSet) :
    checkVulnerabilities (fun n => Except.ok (respOf n)) d
      = Except.ok (vulnSpec respOf d)
    ∧ checkVulnerabilities (fun _ => Except.ok ⟨404, [Json.str "adv"]⟩)
        ⟨[⟨"a", Json.str "1"⟩], [], [⟨"b", Json.str "unknown"⟩]⟩
      = Except.ok []
    ∧ checkVulnerabilities (fun _ => Except.ok ⟨200, []⟩)
        ⟨[⟨"a", Json.str "1"⟩], [], []⟩
      = Except.ok []
    ∧ checkVulnerabilities (fun _ => Except.ok ⟨200, [Json.str "adv"]⟩)
        ⟨[⟨"a", Json.str "1"⟩], [], []⟩
      = Except.ok [⟨"a", "npm", Json.str "1", [Json.str "adv"]⟩] := by
  refine ⟨?_, rfl, rfl, rfl⟩
  unfold checkVulnerabilities vulnSpec
  rw [checkList_ok, checkList_ok, checkList_ok]

/-- Claim C9 counterexample: the claim says ANY failure of the advisory
lookup leaves the repository's scan successful.  `check_vulnerabilities`
does not catch exceptions from `requests.get`; for a repository with one
parsed dependency whose lookup raises, the exception escapes to
`scan_repository`'s handler and the scan ends in an error result — the
scan does not succeed. -/
theorem C9_lookup_exception_fails_scan :
    scanRepo
        ⟨"r", Except.ok [⟨"d", "requirements.txt", FType.python, none, PkgContent.blank, "flask"⟩],
         fun _ => Except.error "ConnectionError"⟩
      = ScanResult.err "r" "ConnectionError"
    ∧ (step scanInit ⟨"d", "requirements.txt", FType.python, none, PkgContent.blank, "flask"⟩).python
      = [⟨"flask", Json.str "unknown"⟩] := by
  exact ⟨rfl, rfl⟩
